import Mathlib

/-!
# Game of Life (`life.cpp`): the simulation engine

A shallow embedding of the `Life` class of `life.cpp` and of the event
handlers of `Life::run` that touch the engine, followed by the properties
proved about them.

Conventions of the embedding.

* A grid (`std::vector< std::vector<int> >`) is a list of columns, each a
  list of cells; `vect[a][b]` is column `a`, cell `b`.  `wide` is the number
  of columns and `tall` the length of each column.  `1` is ALIVE, `0` DEAD.
* C++ `int` indices are `Int`.  `operator[]` does no bounds check, so an
  index outside the buffers reaches memory that is not part of the grid:
  a read there returns whatever the environment holds (`oob a b`, an
  arbitrary parameter of the model), a write there leaves every cell of the
  grid as it was.  Which indices an operation touches is part of what it
  returns or is given by the list it iterates, so safety claims are stated
  about indices and never depend on the value of `oob`.
* `std::rand()` is a stream `rnd : Nat → Nat`; the `k`-th call returns `rnd k`.
* `int` arithmetic that can leave the 32-bit range wraps (`wrap32`).
* `double` and `float` values are dyadic rationals `mant * 2 ^ exp`; literals
  and products are rounded to nearest, ties to even (`roundBits`), as IEEE 754
  binary64 / binary32 do in the range the program uses.
-/

namespace GameOfLife

/-! ## Grids -/

/-- A grid in the layout of `std::vector< std::vector<int> >`: a list of columns. -/
abbrev Grid := List (List Int)

/-- Environment memory: the value a read of `v[a][b]` finds when `(a, b)` is
not a cell of the grid. -/
abbrev Mem := Int → Int → Int

/-- The index pair `(a, b)` lies in `[0, wide) × [0, tall)`. -/
def inGrid (wide tall a b : Int) : Prop :=
  0 ≤ a ∧ a < wide ∧ 0 ≤ b ∧ b < tall

instance (wide tall a b : Int) : Decidable (inGrid wide tall a b) := by
  unfold inGrid; infer_instance

/-- The cell `v[a][b]` of the grid, when `(a, b)` indexes one. -/
def cell? (v : Grid) (a b : Int) : Option Int :=
  if 0 ≤ a ∧ 0 ≤ b then
    match v[a.toNat]? with
    | some col => col[b.toNat]?
    | none => none
  else none

/-- Read `v[a][b]`: the cell when there is one, the environment otherwise. -/
def rd (oob : Mem) (v : Grid) (a b : Int) : Int :=
  (cell? v a b).getD (oob a b)

/-- Write `v[a][b] = c`: replaces the cell when there is one; a write outside
the grid changes no cell of it. -/
def wr (v : Grid) (a b c : Int) : Grid :=
  if 0 ≤ a ∧ 0 ≤ b then
    v.set a.toNat ((v.getD a.toNat []).set b.toNat c)
  else v

/-- The grid `std::vector< std::vector<int> > a(wide, std::vector<int>(tall,0))`
of the constructor: every cell DEAD. -/
def blank (wide tall : Int) : Grid :=
  List.replicate wide.toNat (List.replicate tall.toNat 0)

/-- The members of `Life` the simulation uses. -/
structure Life where
  wide : Int
  tall : Int
  vect : Grid
  tmp : Grid
deriving DecidableEq, Repr

/-- Both buffers have `wide` columns of `tall` cells, as the constructor
builds them. -/
def Life.WF (s : Life) : Prop :=
  0 ≤ s.wide ∧ 0 ≤ s.tall ∧
  s.vect.length = s.wide.toNat ∧ (∀ col ∈ s.vect, col.length = s.tall.toNat) ∧
  s.tmp.length = s.wide.toNat ∧ (∀ col ∈ s.tmp, col.length = s.tall.toNat)

instance (s : Life) : Decidable s.WF := by
  unfold Life.WF; infer_instance

/-! ## `Life::update` -/

/-- The index pairs `Life::update` reads while counting around cell `(y, z)`,
in source order: each of the eight `if`s reads its cell exactly when the
guards in front of it (short-circuit `&&`) hold. -/
def Life.neighbourReads (wide tall y z : Int) : List (Int × Int) :=
  (if y > 0 then [(y - 1, z)] else []) ++
  (if y > 0 ∧ z < tall then [(y - 1, z + 1)] else []) ++
  (if z < tall then [(y, z + 1)] else []) ++
  (if y < wide - 1 ∧ z < tall then [(y + 1, z + 1)] else []) ++
  (if y < wide - 1 then [(y + 1, z)] else []) ++
  (if y < wide - 1 ∧ z > 0 then [(y + 1, z - 1)] else []) ++
  (if z > 0 then [(y, z - 1)] else []) ++
  (if y > 0 ∧ z > 0 then [(y - 1, z - 1)] else [])

/-- The value of `count` after the eight `if`s: one increment for every cell
read that holds `1`. -/
def Life.count (oob : Mem) (s : Life) (y z : Int) : Int :=
  (((Life.neighbourReads s.wide s.tall y z).filter
    (fun p => rd oob s.vect p.1 p.2 = 1)).length : Int)

/-- The rule body of `Life::update` for cell `(y, z)`: the three-way
`if / else if / else if` writing into `tmp` (there is no final `else`). -/
def Life.updateCell (oob : Mem) (s : Life) (tmp : Grid) (y z : Int) : Grid :=
  let count := Life.count oob s y z
  if rd oob s.vect y z = 1 ∧ (count < 2 ∨ count > 3) then wr tmp y z 0
  else if rd oob s.vect y z = 1 ∧ (count ≥ 2 ∨ count ≤ 3) then wr tmp y z 1
  else if rd oob s.vect y z = 0 ∧ (count = 3 ∨ count = 6) then wr tmp y z 1
  else tmp

/-- The inner loop `for(int z = 0; z < tall; z++)` for column `y`. -/
def Life.updateColumn (oob : Mem) (s : Life) (tmp : Grid) (y : Int) : Grid :=
  (List.range s.tall.toNat).foldl (fun (t : Grid) (z : Nat) => Life.updateCell oob s t y z) tmp

/-- The function `Life::update`: both loops over the unchanged `vect`, writing `tmp`,
then `vect = tmp`. -/
def Life.update (oob : Mem) (s : Life) : Life :=
  let tmp := (List.range s.wide.toNat).foldl
    (fun (t : Grid) (y : Nat) => Life.updateColumn oob s t y) s.tmp
  { s with vect := tmp, tmp := tmp }

/-- Run `Life::update` `n` times in the same environment. -/
def Life.updateN (oob : Mem) : Nat → Life → Life
  | 0, s => s
  | n + 1, s => Life.updateN oob n (Life.update oob s)

/-- What `Life::update` leaves in `tmp[y][z]` when that cell held `old` before:
the value one of the three branches writes, else `old` itself. -/
def Life.next (oob : Mem) (s : Life) (y z old : Int) : Int :=
  let count := Life.count oob s y z
  if rd oob s.vect y z = 1 ∧ (count < 2 ∨ count > 3) then 0
  else if rd oob s.vect y z = 1 ∧ (count ≥ 2 ∨ count ≤ 3) then 1
  else if rd oob s.vect y z = 0 ∧ (count = 3 ∨ count = 6) then 1
  else old

/-! ## The HighLife rule as the specification words it -/

/-- The eight Moore offsets. -/
def mooreOffsets : List (Int × Int) :=
  [(-1, -1), (-1, 0), (-1, 1), (0, -1), (0, 1), (1, -1), (1, 0), (1, 1)]

/-- The number of ALIVE cells among the in-bounds Moore neighbours of `(x, y)`
(no wrap-around; a neighbour outside the grid is absent). -/
def liveNeighbours (s : Life) (x y : Int) : Nat :=
  (mooreOffsets.filter (fun d =>
    inGrid s.wide s.tall (x + d.1) (y + d.2) ∧
      cell? s.vect (x + d.1) (y + d.2) = some 1)).length

/-- The B36/S23 next state of cell `(x, y)`: ALIVE iff ALIVE with 2 or 3 live
neighbours, or DEAD with 3 or 6; otherwise DEAD. -/
def highLife (s : Life) (x y : Int) : Int :=
  if (cell? s.vect x y = some 1 ∧ (liveNeighbours s x y = 2 ∨ liveNeighbours s x y = 3)) ∨
     (cell? s.vect x y = some 0 ∧ (liveNeighbours s x y = 3 ∨ liveNeighbours s x y = 6))
  then 1 else 0

/-! ## `Life::blob`, `Life::fill`, the constructor -/

/-- Perform a list of writes `vect[a][b] = c`, first to last. -/
def applyWrites (v : Grid) (ws : List (Int × Int × Int)) : Grid :=
  ws.foldl (fun (g : Grid) (w : Int × Int × Int) => wr g w.1 w.2.1 w.2.2) v

/-- The guard of `Life::blob`: `x > 0 && y > 0 && x < wide-1 && y < tall`. -/
def Life.blobGuard (s : Life) (x y : Int) : Prop :=
  x > 0 ∧ y > 0 ∧ x < s.wide - 1 ∧ y < s.tall

instance (s : Life) (x y : Int) : Decidable (s.blobGuard x y) := by
  unfold Life.blobGuard; infer_instance

/-- The nine assignments `(column, cell, value)` in the body of `Life::blob`, in
source order: the centre, then the eight neighbours with `std::rand() % 2`. -/
def Life.blobWrites (rnd : Nat → Nat) (x y : Int) : List (Int × Int × Int) :=
  [ (x, y, 1),
    (x - 1, y, ((rnd 0 % 2 : Nat) : Int)),
    (x + 1, y, ((rnd 1 % 2 : Nat) : Int)),
    (x, y - 1, ((rnd 2 % 2 : Nat) : Int)),
    (x, y + 1, ((rnd 3 % 2 : Nat) : Int)),
    (x - 1, y - 1, ((rnd 4 % 2 : Nat) : Int)),
    (x + 1, y + 1, ((rnd 5 % 2 : Nat) : Int)),
    (x - 1, y + 1, ((rnd 6 % 2 : Nat) : Int)),
    (x + 1, y - 1, ((rnd 7 % 2 : Nat) : Int)) ]

/-- Perform a list of writes `vect[a][b] = c`, first to last, keeping a record of
the writes that miss the grid: the resulting grid, and the writes whose
address was not a cell of the grid at the time, in the order performed. -/
def runWrites (v : Grid) (ws : List (Int × Int × Int)) : Grid × List (Int × Int × Int) :=
  ws.foldl (fun (st : Grid × List (Int × Int × Int)) (w : Int × Int × Int) =>
    (wr st.1 w.1 w.2.1 w.2.2,
      if (cell? st.1 w.1 w.2.1).isSome then st.2 else st.2 ++ [w])) (v, [])

/-- An execution of `Life::blob`: under the guard the nine assignments are
performed, otherwise nothing.  The result is the engine it leaves together with
the assignments that addressed memory outside the grid. -/
def Life.blobRun (rnd : Nat → Nat) (s : Life) (x y : Int) :
    Life × List (Int × Int × Int) :=
  if s.blobGuard x y then
    ({ s with vect := (runWrites s.vect (Life.blobWrites rnd x y)).1 },
      (runWrites s.vect (Life.blobWrites rnd x y)).2)
  else (s, [])

/-- The function `Life::blob`: the engine its execution leaves. -/
def Life.blob (rnd : Nat → Nat) (s : Life) (x y : Int) : Life :=
  (Life.blobRun rnd s x y).1

/-- The function `Life::fill`: every cell of `vect` gets `1` when `std::rand() % 2` is `1`
and `0` otherwise; the draw for cell `(y, z)` is call number `y * tall + z`. -/
def Life.fill (rnd : Nat → Nat) (s : Life) : Life :=
  { s with vect := (List.range s.wide.toNat).foldl (fun (v : Grid) (y : Nat) =>
      (List.range s.tall.toNat).foldl (fun (v : Grid) (z : Nat) =>
        if rnd (y * s.tall.toNat + z) % 2 = 1 then wr v y z 1 else wr v y z 0) v) s.vect }

/-- The engine the constructor `Life::Life(bool yes)` leaves when its assets load,
for the `wide` and `tall` that `scale()` computed: both buffers all DEAD, then
`fill()` unless `yes`. -/
def Life.init (wide tall : Int) (yes : Bool) (rnd : Nat → Nat) : Life :=
  let s : Life := { wide := wide, tall := tall, vect := blank wide tall, tmp := blank wide tall }
  if !yes then Life.fill rnd s else s

/-- The buffer `tmp` is DEAD at every cell of the grid where `vect` is DEAD. -/
def Life.TmpDeadWhereVectDead (s : Life) : Prop :=
  ∀ a b : Int, inGrid s.wide s.tall a b → cell? s.vect a b = some 0 → cell? s.tmp a b = some 0

/-- Every cell of the grid holds `0` or `1`. -/
def Binary (v : Grid) : Prop :=
  ∀ (a b c : Int), cell? v a b = some c → c = 0 ∨ c = 1

/-- The grid has `wide` columns of `tall` cells. -/
def Shaped (wide tall : Int) (v : Grid) : Prop :=
  v.length = wide.toNat ∧ ∀ col ∈ v, col.length = tall.toNat

/-- The engine states the constructor and `Life::update` produce: well-formed
buffers of 0/1 cells with `tmp` DEAD wherever `vect` is. -/
def Life.Good (s : Life) : Prop :=
  s.WF ∧ Binary s.vect ∧ Binary s.tmp ∧ s.TmpDeadWhereVectDead

/-! ## The handlers of `Life::run` -/

/-- The assignment the `Mouse::Middle` handler performs for the mapped click
`(x, y)`: `if(x < wide && y < tall) vect[x][y] = 0;`. -/
def Life.middleWrites (s : Life) (x y : Int) : List (Int × Int × Int) :=
  if x < s.wide ∧ y < s.tall then [(x, y, 0)] else []

/-- The `Mouse::Middle` handler of `Life::run` on the mapped click `(x, y)`. -/
def Life.middle (s : Life) (x y : Int) : Life :=
  { s with vect := applyWrites s.vect (Life.middleWrites s x y) }

/-- A 32-bit two's-complement `int` holding the integer `n`. -/
def wrap32 (n : Int) : Int :=
  (n + 2147483648) % 4294967296 - 2147483648

/-- The default `int speed = 50000000;`. -/
def speed0 : Int := 50000000

/-- The `MouseWheelMoved` handler of `Life::run`:
`speed += (delta * -10000000);` then the two-sided clamp. -/
def wheel (speed delta : Int) : Int :=
  let speed := wrap32 (speed + wrap32 (delta * (-10000000)))
  if speed ≤ 0 then 1000
  else if speed ≥ 999999999 then 999999999
  else speed

/-- A sequence of wheel events, handled in order. -/
def wheels (speed : Int) (deltas : List Int) : Int :=
  deltas.foldl wheel speed

/-! ## `Life::render` -/

/-- The function `Life::render`: the positions at which `window.draw(cell)` is issued,
in order, and the position the sprite is left at.  `place x y` is the position
`(x*(adjust*30)+10, y*(adjust*24)+10)` that `setPosition` receives for cell `(x, y)`; `cell` is where the sprite stood on
entry.  `setPosition` is inside the `if`, `window.draw` after it. -/
def Life.render {P : Type} (place : Int → Int → P) (oob : Mem) (s : Life) (cell : P) :
    List P × P :=
  (List.range s.wide.toNat).foldl (fun (st : List P × P) (x : Nat) =>
    (List.range s.tall.toNat).foldl (fun (st : List P × P) (y : Nat) =>
      let cell := if rd oob s.vect x y = 1 then place x y else st.2
      (st.1 ++ [cell], cell)) st) ([], cell)

/-! ## `Life::scale` and its floating-point arithmetic -/

/-- A binary floating-point value `mant * 2 ^ exp`. -/
structure Flt where
  mant : Nat
  exp : Int
deriving DecidableEq, Repr

/-- The rational number a floating-point value stands for. -/
def Flt.toRat (f : Flt) : ℚ := (f.mant : ℚ) * (2 : ℚ) ^ f.exp

/-- The position of the leading bit of `n` (`0` for `n ≤ 1`), found by halving
at most `fuel` times; `ilog2 n n` is `⌊log₂ n⌋`. -/
def ilog2 : Nat → Nat → Nat
  | 0, _ => 0
  | fuel + 1, n => if n < 2 then 0 else ilog2 fuel (n / 2) + 1

/-- Round the non-negative rational `n / d` to `p` significant bits: to nearest,
ties to even (IEEE 754 `roundTiesToEven`, outside the overflow and subnormal
ranges). -/
def roundBits (p n d : Nat) : Flt :=
  if n = 0 then ⟨0, 0⟩ else
  let e0 : Int := (ilog2 n n : Int) - (ilog2 d d : Int) - (p : Int)
  let e : Int := if n * 2 ^ (-e0).toNat / (d * 2 ^ e0.toNat) ≥ 2 ^ p then e0 + 1 else e0
  let num := n * 2 ^ (-e).toNat
  let den := d * 2 ^ e.toNat
  let q := num / den
  let r := num % den
  if 2 * r > den ∨ (2 * r = den ∧ q % 2 = 1) then ⟨q + 1, e⟩ else ⟨q, e⟩

/-- The `double` a decimal literal with value `n / d` denotes. -/
def dbl (n d : Nat) : Flt := roundBits 53 n d

/-- The `double` product `x * f` of a non-negative `int` (converted exactly)
and a `double`. -/
def Flt.mulInt (x : Nat) (f : Flt) : Flt :=
  roundBits 53 (x * f.mant * 2 ^ f.exp.toNat) (2 ^ (-f.exp).toNat)

/-- Conversion of a non-negative `double` to `int`: the fraction is discarded. -/
def Flt.toInt (f : Flt) : Int :=
  ((f.mant * 2 ^ f.exp.toNat / 2 ^ (-f.exp).toNat : Nat) : Int)

/-- Conversion of a `double` to `float` (24 significant bits). -/
def Flt.toFloat (f : Flt) : Flt :=
  roundBits 24 (f.mant * 2 ^ f.exp.toNat) (2 ^ (-f.exp).toNat)

/-- What `Life::scale` assigns: `wide`, `tall` and the `float adjust`. -/
structure Scale where
  wide : Int
  tall : Int
  adjust : Flt
deriving DecidableEq, Repr

/-- The function `Life::scale` for the globals `size`, `xwin`, `ywin`: the `switch`, each
case `wide = (xwin*.NNNN); tall = (ywin*.NNNN); adjust = .N;`. -/
def Life.scale (size : Int) (xwin ywin : Nat) : Scale :=
  if size = 9 then
    ⟨(Flt.mulInt xwin (dbl 369 10000)).toInt, (Flt.mulInt ywin (dbl 438 10000)).toInt,
      (dbl 9 10).toFloat⟩
  else if size = 8 then
    ⟨(Flt.mulInt xwin (dbl 407 10000)).toInt, (Flt.mulInt ywin (dbl 500 10000)).toInt,
      (dbl 8 10).toFloat⟩
  else if size = 7 then
    ⟨(Flt.mulInt xwin (dbl 468 10000)).toInt, (Flt.mulInt ywin (dbl 583 10000)).toInt,
      (dbl 7 10).toFloat⟩
  else if size = 6 then
    ⟨(Flt.mulInt xwin (dbl 546 10000)).toInt, (Flt.mulInt ywin (dbl 687 10000)).toInt,
      (dbl 6 10).toFloat⟩
  else if size = 5 then
    ⟨(Flt.mulInt xwin (dbl 656 10000)).toInt, (Flt.mulInt ywin (dbl 812 10000)).toInt,
      (dbl 5 10).toFloat⟩
  else if size = 4 then
    ⟨(Flt.mulInt xwin (dbl 813 10000)).toInt, (Flt.mulInt ywin (dbl 1020 10000)).toInt,
      (dbl 4 10).toFloat⟩
  else if size = 3 then
    ⟨(Flt.mulInt xwin (dbl 1093 10000)).toInt, (Flt.mulInt ywin (dbl 1354 10000)).toInt,
      (dbl 3 10).toFloat⟩
  else if size = 2 then
    ⟨(Flt.mulInt xwin (dbl 1640 10000)).toInt, (Flt.mulInt ywin (dbl 2041 10000)).toInt,
      (dbl 2 10).toFloat⟩
  else if size = 1 then
    ⟨(Flt.mulInt xwin (dbl 3265 10000)).toInt, (Flt.mulInt ywin (dbl 4062 10000)).toInt,
      (dbl 1 10).toFloat⟩
  else
    ⟨(Flt.mulInt xwin (dbl 325 10000)).toInt, (Flt.mulInt ywin (dbl 400 10000)).toInt,
      (dbl 1 1).toFloat⟩

/-- The tier table of the specification:
tier ↦ (widthMultiplier, heightMultiplier, renderScale), as exact rationals. -/
def tierTable (size : Int) : ℚ × ℚ × ℚ :=
  if size = 1 then (0.3265, 0.4062, 0.1)
  else if size = 2 then (0.1640, 0.2041, 0.2)
  else if size = 3 then (0.1093, 0.1354, 0.3)
  else if size = 4 then (0.0813, 0.1020, 0.4)
  else if size = 5 then (0.0656, 0.0812, 0.5)
  else if size = 6 then (0.0546, 0.0687, 0.6)
  else if size = 7 then (0.0468, 0.0583, 0.7)
  else if size = 8 then (0.0407, 0.0500, 0.8)
  else if size = 9 then (0.0369, 0.0438, 0.9)
  else (0.0325, 0.0400, 1.0)

/-! ## Engine states used as concrete inputs -/

/-- A 3 × 3 engine whose grid is all DEAD while `tmp` still holds a 2 × 2 block:
the state after an update of the block followed by middle clicks on its four
cells (the handler clears `vect` only). -/
def clearedBlock : Life :=
  { wide := 3, tall := 3, vect := blank 3 3, tmp := [[1, 1, 0], [1, 1, 0], [0, 0, 0]] }

/-- The same 3 × 3 all-DEAD grid with an all-DEAD `tmp`. -/
def blank3 : Life :=
  { wide := 3, tall := 3, vect := blank 3 3, tmp := blank 3 3 }

/-- A 5 × 3 engine whose grid holds one 2 × 2 block (columns 0 and 1) while `tmp`
holds that block and a second one (columns 3 and 4): two blocks after an
update, the second then cleared by middle clicks. -/
def oneOfTwoBlocks : Life :=
  { wide := 5, tall := 3,
    vect := [[1, 1, 0], [1, 1, 0], [0, 0, 0], [0, 0, 0], [0, 0, 0]],
    tmp := [[1, 1, 0], [1, 1, 0], [0, 0, 0], [1, 1, 0], [1, 1, 0]] }

/-- Memory in which every word outside the grid holds `1`. -/
def onesMem : Mem := fun _ _ => 1

/-! ## Reading and writing grids -/

theorem cell?_wr (t : Grid) (a b c a' b' : Int) :
    cell? (wr t a b c) a' b' =
      if a' = a ∧ b' = b then (cell? t a b).map (fun _ => c) else cell? t a' b' := by
  unfold wr
  by_cases hab : 0 ≤ a ∧ 0 ≤ b
  · rw [if_pos hab]
    by_cases h : a' = a ∧ b' = b
    · obtain ⟨rfl, rfl⟩ := h
      simp only [cell?, if_pos hab, and_self, if_true, List.getElem?_set]
      by_cases hl : a'.toNat < t.length
      · simp [hl, List.getD_eq_getElem?_getD, List.getElem?_eq_getElem hl, List.getElem?_set]
        by_cases hb : b'.toNat < t[a'.toNat].length
        · simp [hb]
        · simp [hb, List.getElem?_eq_none (not_lt.mp hb)]
      · simp [hl, List.getElem?_eq_none (not_lt.mp hl)]
    · rw [if_neg h]
      unfold cell?
      by_cases hab' : 0 ≤ a' ∧ 0 ≤ b'
      · simp only [if_pos hab', List.getElem?_set]
        by_cases ha : a.toNat = a'.toNat
        · have haa : a' = a := by omega
          have hbb : b.toNat ≠ b'.toNat := by
            intro hb; apply h; exact ⟨haa, by omega⟩
          subst haa
          by_cases hl : a'.toNat < t.length
          · simp [hl, List.getD_eq_getElem?_getD, List.getElem?_eq_getElem hl, List.getElem?_set, hbb]
          · simp [hl, List.getElem?_eq_none (not_lt.mp hl)]
        · simp [ha]
      · simp [hab']
  · rw [if_neg hab]
    by_cases h : a' = a ∧ b' = b
    · obtain ⟨rfl, rfl⟩ := h
      simp [cell?, hab]
    · simp [h]


theorem cell?_updateCell (oob : Mem) (s : Life) (t : Grid) (y z a b : Int) :
    cell? (Life.updateCell oob s t y z) a b =
      if a = y ∧ b = z then (cell? t a b).map (Life.next oob s y z) else cell? t a b := by
  unfold Life.updateCell Life.next
  by_cases h : a = y ∧ b = z
  · obtain ⟨rfl, rfl⟩ := h
    simp only [and_self, if_true]
    split_ifs <;> simp [cell?_wr]
  · simp only [if_neg h]
    split_ifs <;> simp [cell?_wr, h]

theorem cell?_foldl_updateCell (oob : Mem) (s : Life) (y : Int) (n : Nat) (t : Grid) (a b : Int) :
    cell? ((List.range n).foldl (fun (t : Grid) (z : Nat) => Life.updateCell oob s t y z) t) a b =
      if a = y ∧ 0 ≤ b ∧ b < n then (cell? t a b).map (Life.next oob s a b) else cell? t a b := by
  induction n with
  | zero =>
    rw [List.range_zero, List.foldl_nil, if_neg (by omega)]
  | succ n ih =>
    rw [List.range_succ, List.foldl_append, List.foldl_cons, List.foldl_nil,
      cell?_updateCell, ih]
    by_cases hy : a = y
    · subst hy
      by_cases hb : b = (n : Int)
      · subst hb
        split_ifs <;> first | rfl | (exfalso; omega)
      · split_ifs <;> first | rfl | (exfalso; omega)
    · split_ifs <;> first | rfl | (exfalso; omega)

theorem cell?_updateColumn (oob : Mem) (s : Life) (t : Grid) (y a b : Int) :
    cell? (Life.updateColumn oob s t y) a b =
      if a = y ∧ 0 ≤ b ∧ b < s.tall.toNat then (cell? t a b).map (Life.next oob s a b)
      else cell? t a b :=
  cell?_foldl_updateCell oob s y s.tall.toNat t a b

theorem cell?_foldl_updateColumn (oob : Mem) (s : Life) (m : Nat) (t : Grid) (a b : Int) :
    cell? ((List.range m).foldl (fun (t : Grid) (y : Nat) => Life.updateColumn oob s t y) t) a b =
      if (0 ≤ a ∧ a < m) ∧ 0 ≤ b ∧ b < s.tall.toNat then (cell? t a b).map (Life.next oob s a b)
      else cell? t a b := by
  induction m with
  | zero =>
    rw [List.range_zero, List.foldl_nil, if_neg (by omega)]
  | succ m ih =>
    rw [List.range_succ, List.foldl_append, List.foldl_cons, List.foldl_nil,
      cell?_updateColumn, ih]
    by_cases ha : a = (m : Int)
    · subst ha
      split_ifs <;> first | rfl | (exfalso; omega)
    · split_ifs <;> first | rfl | (exfalso; omega)

/-- Every cell of the grid after `Life::update`: the rule applied to the old
`vect`, falling back on the old content of `tmp` where no branch writes. -/
theorem cell?_update (oob : Mem) (s : Life) (a b : Int) :
    cell? (Life.update oob s).vect a b =
      if inGrid s.wide s.tall a b then (cell? s.tmp a b).map (Life.next oob s a b)
      else cell? s.tmp a b := by
  unfold Life.update
  simp only [cell?_foldl_updateColumn]
  have h : ((0 ≤ a ∧ a < (s.wide.toNat : Int)) ∧ 0 ≤ b ∧ b < (s.tall.toNat : Int)) ↔
      inGrid s.wide s.tall a b := by
    unfold inGrid; omega
  simp only [h]


theorem cell?_blank (wide tall a b : Int) (h : inGrid wide tall a b) :
    cell? (blank wide tall) a b = some 0 := by
  obtain ⟨h1, h2, h3, h4⟩ := h
  have ha : a.toNat < wide.toNat := by omega
  have hb : b.toNat < tall.toNat := by omega
  simp [cell?, blank, h1, h3, List.getElem?_replicate, ha, hb]

/-! ## `Life::update`: the missing `else` and the read past the column end -/

/-- C1 (the claim fails on this input).  On `clearedBlock` (grid all DEAD, `tmp` still
holding a block) the DEAD cell `(0, 0)` has no live neighbour, so B36/S23 keeps
it DEAD; `Life::update` writes nothing for it and `vect = tmp` makes it ALIVE,
whatever memory outside the grid holds. -/
theorem update_keeps_stale_tmp (oob : Mem) :
    cell? clearedBlock.vect 0 0 = some 0 ∧ liveNeighbours clearedBlock 0 0 = 0 ∧
      highLife clearedBlock 0 0 = 0 ∧
      cell? (Life.update oob clearedBlock).vect 0 0 = some 1 := by
  refine ⟨by decide, by decide, by decide, ?_⟩
  rw [cell?_update]
  rfl

/-- C2 (the claim fails on this input).  The engines `blank3` and `clearedBlock` have
the same dimensions and the same current grid and differ only in `tmp`; after
one `Life::update` in the same environment their grids differ. -/
theorem update_depends_on_tmp (oob : Mem) :
    blank3.wide = clearedBlock.wide ∧ blank3.tall = clearedBlock.tall ∧
      blank3.vect = clearedBlock.vect ∧
      (Life.update oob blank3).vect ≠ (Life.update oob clearedBlock).vect := by
  refine ⟨rfl, rfl, rfl, ?_⟩
  intro h
  have h0 : cell? (Life.update oob blank3).vect 0 0 = some 0 := by
    rw [cell?_update]; rfl
  have h1 : cell? (Life.update oob clearedBlock).vect 0 0 = some 1 := by
    rw [cell?_update]; rfl
  rw [h, h1] at h0
  exact absurd h0 (by decide)

/-- C7 (the claim fails on this input).  The current grid of `clearedBlock` is all
DEAD, and after one `Life::update` it is not: the block left in `tmp` comes back. -/
theorem update_all_dead_revives (oob : Mem) :
    clearedBlock.vect = blank 3 3 ∧ (Life.update oob clearedBlock).vect ≠ blank 3 3 := by
  refine ⟨rfl, ?_⟩
  intro h
  have h1 : cell? (Life.update oob clearedBlock).vect 0 0 = some 1 := by
    rw [cell?_update]; rfl
  rw [h] at h1
  exact absurd h1 (by decide)

/-- C8 (the claim fails on this input).  The ALIVE cells of `oneOfTwoBlocks` are the
four cells of one 2 × 2 block, and one `Life::update` changes the grid: cell
`(3, 0)`, DEAD with no live neighbour, takes the stale `1` of `tmp`. -/
theorem update_block_not_stable (oob : Mem) :
    oneOfTwoBlocks.vect = [[1, 1, 0], [1, 1, 0], [0, 0, 0], [0, 0, 0], [0, 0, 0]] ∧
      cell? oneOfTwoBlocks.vect 3 0 = some 0 ∧
      cell? (Life.update oob oneOfTwoBlocks).vect 3 0 = some 1 ∧
      (Life.update oob oneOfTwoBlocks).vect ≠ oneOfTwoBlocks.vect := by
  have h1 : cell? (Life.update oob oneOfTwoBlocks).vect 3 0 = some 1 := by
    rw [cell?_update]; rfl
  refine ⟨rfl, by decide, h1, ?_⟩
  intro h
  rw [h] at h1
  exact absurd h1 (by decide)

/-- C10 (the claim fails on every grid).  While counting around the last cell
`(y, tall - 1)` of any column `y`, `Life::update` reads `vect[y][tall]`: the guard
in front of that read is `z < tall`, which holds for every cell visited, and
`(y, tall)` is not a cell of the grid. -/
theorem update_reads_past_column_end (wide tall y : Int) :
    (y, tall) ∈ Life.neighbourReads wide tall y (tall - 1) ∧ ¬ inGrid wide tall y tall := by
  constructor
  · have h : tall - 1 < tall := by omega
    simp [Life.neighbourReads, h]
  · unfold inGrid; omega

/-! ## `Life::blob` -/

theorem runWrites_fst (v : Grid) (ws : List (Int × Int × Int)) :
    (runWrites v ws).1 = applyWrites v ws := by
  unfold runWrites applyWrites
  have h : ∀ (st : Grid × List (Int × Int × Int)),
      (ws.foldl (fun (st : Grid × List (Int × Int × Int)) (w : Int × Int × Int) =>
        (wr st.1 w.1 w.2.1 w.2.2,
          if (cell? st.1 w.1 w.2.1).isSome then st.2 else st.2 ++ [w])) st).1 =
      ws.foldl (fun (g : Grid) (w : Int × Int × Int) => wr g w.1 w.2.1 w.2.2) st.1 := by
    induction ws with
    | nil => intro st; rfl
    | cons w ws ih => intro st; rw [List.foldl_cons, List.foldl_cons, ih]
  exact h (v, [])

theorem cell?_blob_centre (rnd : Nat → Nat) (v : Grid) (x y : Int) :
    cell? (applyWrites v (Life.blobWrites rnd x y)) x y = (cell? v x y).map (fun _ => 1) := by
  simp only [applyWrites, Life.blobWrites, List.foldl_cons, List.foldl_nil]
  rw [cell?_wr, if_neg (by omega), cell?_wr, if_neg (by omega), cell?_wr, if_neg (by omega),
    cell?_wr, if_neg (by omega), cell?_wr, if_neg (by omega), cell?_wr, if_neg (by omega),
    cell?_wr, if_neg (by omega), cell?_wr, if_neg (by omega), cell?_wr, if_pos ⟨rfl, rfl⟩]

/-- When the guard of `Life::blob` holds and `(x, y)` is a cell, that cell is `1` after
`Life::blob`: none of the eight later writes addresses it. -/
theorem blob_centre_alive (rnd : Nat → Nat) (s : Life) (x y : Int) (hg : s.blobGuard x y)
    (c : Int) (hc : cell? s.vect x y = some c) :
    cell? (Life.blob rnd s x y).vect x y = some 1 := by
  unfold Life.blob Life.blobRun
  rw [if_pos hg]
  show cell? (runWrites s.vect (Life.blobWrites rnd x y)).1 x y = some 1
  rw [runWrites_fst, cell?_blob_centre, hc]
  rfl

/-- C3 (the claim as stated fails).  On the all-DEAD 3 × 3 grid, `(1, 0)` satisfies
`0 < x < width-1` and `0 ≤ y < height`, yet `Life::blob` leaves cell `(1, 0)` DEAD:
its guard also requires `y > 0`. -/
theorem blob_top_row_ignored :
    ((0 : Int) < 1 ∧ (1 : Int) < blank3.wide - 1 ∧ (0 : Int) ≤ 0 ∧ (0 : Int) < blank3.tall) ∧
      blank3.vect = blank blank3.wide blank3.tall ∧
      Life.blob (fun _ => 1) blank3 1 0 = blank3 ∧
      cell? (Life.blob (fun _ => 1) blank3 1 0).vect 1 0 = some 0 := by
  decide

/-- C3 (amended).  On an all-DEAD grid, for all integers `x`, `y` and all random
draws: if `0 < x < wide-1` and `0 < y < tall` then after `Life::blob` cell `(x, y)`
is ALIVE, and otherwise `Life::blob` changes nothing. -/
theorem blob_on_dead_grid (rnd : Nat → Nat) (s : Life) (x y : Int)
    (hdead : s.vect = blank s.wide s.tall) :
    ((0 < x ∧ x < s.wide - 1 ∧ 0 < y ∧ y < s.tall) →
        cell? (Life.blob rnd s x y).vect x y = some 1) ∧
      (¬ (0 < x ∧ x < s.wide - 1 ∧ 0 < y ∧ y < s.tall) → Life.blob rnd s x y = s) := by
  constructor
  · intro h
    have hg : s.blobGuard x y := by unfold Life.blobGuard; omega
    have hin : inGrid s.wide s.tall x y := by unfold inGrid; omega
    unfold Life.blob Life.blobRun
    rw [if_pos hg]
    show cell? (runWrites s.vect (Life.blobWrites rnd x y)).1 x y = some 1
    rw [runWrites_fst, cell?_blob_centre, hdead, cell?_blank _ _ _ _ hin]
    rfl
  · intro h
    have hg : ¬ s.blobGuard x y := by unfold Life.blobGuard; omega
    unfold Life.blob Life.blobRun
    rw [if_neg hg]

/-- C3 (amended), at concrete inputs: on the all-DEAD 3 × 3 grid `blob(1, 1)` makes
`(1, 1)` ALIVE and `blob(1, 0)` changes nothing. -/
theorem blob_on_dead_grid_witness :
    cell? (Life.blob (fun _ => 1) blank3 1 1).vect 1 1 = some 1 ∧
      Life.blob (fun _ => 1) blank3 1 0 = blank3 :=
  ⟨(blob_on_dead_grid (fun _ => 1) blank3 1 1 rfl).1 (by decide),
    (blob_on_dead_grid (fun _ => 1) blank3 1 0 rfl).2 (by decide)⟩

/-- C11.  The guard of `Life::blob` does not confine its writes to the grid: on the
well-formed all-DEAD 3 × 3 engine the coordinates `(1, 2)` pass the guard
`x > 0 && y > 0 && x < wide-1 && y < tall`, and whatever the random draws the
execution of `Life::blob` performs three of its eight neighbour writes, `vect[1][3]`,
`vect[2][3]` and `vect[0][3]`, at addresses outside `[0, wide) × [0, tall)`. -/
theorem blob_writes_outside_grid :
    ∃ (s : Life) (x y : Int), s.WF ∧
      (x > 0 ∧ y > 0 ∧ x < s.wide - 1 ∧ y < s.tall) ∧
      ∀ rnd : Nat → Nat,
        (Life.blobRun rnd s x y).2 =
          [(x, y + 1, ((rnd 3 % 2 : Nat) : Int)), (x + 1, y + 1, ((rnd 5 % 2 : Nat) : Int)),
            (x - 1, y + 1, ((rnd 6 % 2 : Nat) : Int))] ∧
        (Life.blobRun rnd s x y).1 = Life.blob rnd s x y ∧
        cell? (Life.blob rnd s x y).vect x y = some 1 ∧
        ∃ w ∈ (Life.blobRun rnd s x y).2,
          w ∈ (Life.blobWrites rnd x y).tail ∧ ¬ inGrid s.wide s.tall w.1 w.2.1 := by
  refine ⟨blank3, 1, 2, by decide, by decide, ?_⟩
  intro rnd
  have hrun : (Life.blobRun rnd blank3 1 2).2 =
      [(1, 3, ((rnd 3 % 2 : Nat) : Int)), (2, 3, ((rnd 5 % 2 : Nat) : Int)),
        (0, 3, ((rnd 6 % 2 : Nat) : Int))] := rfl
  refine ⟨hrun, rfl, blob_centre_alive rnd blank3 1 2 (by decide) 0 (by decide), ?_⟩
  refine ⟨(1, 3, ((rnd 3 % 2 : Nat) : Int)), ?_, ?_, ?_⟩
  · rw [hrun]; simp
  · simp [Life.blobWrites]
  · show ¬ inGrid 3 3 1 3
    decide

/-! ## The handlers of `Life::run` -/

/-- C4 (the claim fails on this input).  In the 69 × 64 engine of tier 3 at 640 × 480,
a middle click mapped to `(-1, 0)` passes the handler's test `x < wide && y < tall`,
so the handler performs the write `vect[-1][0] = 0`, and `(-1, 0)` is not a cell
of the grid. -/
theorem middle_writes_negative_index :
    (Life.scale 3 640 480).wide = 69 ∧ (Life.scale 3 640 480).tall = 64 ∧
      Life.middleWrites (Life.init 69 64 true (fun _ => 0)) (-1) 0 = [(-1, 0, 0)] ∧
      ¬ inGrid 69 64 (-1) 0 := by
  decide

/-! ## `Life::render` -/

/-- C9 (the claim fails on this input).  On the all-DEAD 3 × 3 grid `Life::render`
issues nine draws, one per cell, each at the position the sprite had on entry:
`window.draw(cell)` stands after the `if`, not inside it. -/
theorem render_draws_dead_cells {P : Type} (place : Int → Int → P) (oob : Mem) (c : P) :
    blank3.vect = blank 3 3 ∧ (Life.render place oob blank3 c).1 = List.replicate 9 c := by
  exact ⟨rfl, rfl⟩

/-! ## The wheel handler and `speed` -/

theorem wheel_inv (speed delta : Int) (hd : -114 ≤ delta ∧ delta ≤ 214)
    (h : (1000 ≤ speed ∧ speed ≤ 999999999) ∧
      (speed % 10000000 = 0 ∨ speed % 10000000 = 1000 ∨ speed % 10000000 = 9999999)) :
    (1000 ≤ wheel speed delta ∧ wheel speed delta ≤ 999999999) ∧
      (wheel speed delta % 10000000 = 0 ∨ wheel speed delta % 10000000 = 1000 ∨
        wheel speed delta % 10000000 = 9999999) := by
  have e1 : wrap32 (delta * (-10000000)) = delta * (-10000000) := by
    unfold wrap32; omega
  have e2 : wrap32 (speed + delta * (-10000000)) = speed + delta * (-10000000) := by
    unfold wrap32; omega
  unfold wheel
  simp only [e1, e2]
  split_ifs <;> omega

theorem wheels_inv (deltas : List Int) (hd : ∀ d ∈ deltas, -114 ≤ d ∧ d ≤ 214) (speed : Int)
    (h : (1000 ≤ speed ∧ speed ≤ 999999999) ∧
      (speed % 10000000 = 0 ∨ speed % 10000000 = 1000 ∨ speed % 10000000 = 9999999)) :
    1000 ≤ wheels speed deltas ∧ wheels speed deltas ≤ 999999999 := by
  induction deltas generalizing speed with
  | nil => exact h.1
  | cons d ds ih =>
    have hd0 := hd d (List.mem_cons_self d ds)
    exact ih (fun x hx => hd x (List.mem_cons_of_mem d hx)) (wheel speed d)
      (wheel_inv speed d hd0 h)

/-- C6 (the claim as stated fails).  One wheel event with the 32-bit delta `2298242`
takes `speed` from its default `50000000` to `896`, below `1000`: the product
`delta * -10000000` wraps, and the clamp only catches values `≤ 0`. -/
theorem wheel_wraps_below_range :
    (-2147483648 ≤ (2298242 : Int) ∧ (2298242 : Int) ≤ 2147483647) ∧
      wheels speed0 [2298242] = 896 ∧
      ¬ (1000 ≤ wheels speed0 [2298242] ∧ wheels speed0 [2298242] ≤ 999999999) := by
  decide

/-- C6 (amended).  Starting from the default `50000000`, after any finite sequence
of wheel events whose deltas lie in `[-114, 214]` (the deltas for which the
32-bit arithmetic of the handler cannot overflow), `1000 ≤ speed ≤ 999999999`. -/
theorem wheel_speed_in_range (deltas : List Int) (hd : ∀ d ∈ deltas, -114 ≤ d ∧ d ≤ 214) :
    1000 ≤ wheels speed0 deltas ∧ wheels speed0 deltas ≤ 999999999 :=
  wheels_inv deltas hd speed0 (by decide)

/-- C6 (amended), at a concrete input: the events `1, -114, 214, 3, -7`. -/
theorem wheel_speed_in_range_witness :
    (∀ d ∈ [(1 : Int), -114, 214, 3, -7], -114 ≤ d ∧ d ≤ 214) ∧
      1000 ≤ wheels speed0 [1, -114, 214, 3, -7] ∧
      wheels speed0 [1, -114, 214, 3, -7] ≤ 999999999 :=
  ⟨by decide, wheel_speed_in_range [1, -114, 214, 3, -7] (by decide)⟩

/-! ## `Life::scale` -/

theorem floor_mul_tenThousandths (W m : ℕ) (q : ℚ) (hq : q = (m : ℚ) / 10000) :
    ⌊(W : ℚ) * q⌋ = ((W * m / 10000 : ℕ) : ℤ) := by
  subst hq
  have h : (W : ℚ) * ((m : ℚ) / 10000) = ((W * m : ℕ) : ℚ) / ((10000 : ℕ) : ℚ) := by
    push_cast; ring
  rw [h, Rat.floor_natCast_div_natCast]
  norm_cast

theorem toFloat_tenths_1 : (dbl 1 10).toFloat = ⟨13421773, -27⟩ := by decide

theorem toFloat_tenths_2 : (dbl 2 10).toFloat = ⟨13421773, -26⟩ := by decide

theorem toFloat_tenths_3 : (dbl 3 10).toFloat = ⟨10066330, -25⟩ := by decide

theorem toFloat_tenths_4 : (dbl 4 10).toFloat = ⟨13421773, -25⟩ := by decide

theorem toFloat_tenths_5 : (dbl 5 10).toFloat = ⟨8388608, -24⟩ := by decide

theorem toFloat_tenths_6 : (dbl 6 10).toFloat = ⟨10066330, -24⟩ := by decide

theorem toFloat_tenths_7 : (dbl 7 10).toFloat = ⟨11744051, -24⟩ := by decide

theorem toFloat_tenths_8 : (dbl 8 10).toFloat = ⟨13421773, -24⟩ := by decide

theorem toFloat_tenths_9 : (dbl 9 10).toFloat = ⟨15099494, -24⟩ := by decide

theorem toFloat_one : (dbl 1 1).toFloat = ⟨8388608, -23⟩ := by decide

/-- One `case` of the `switch` in `Life::scale`, given that the `double` products
at the menu's window sizes truncate to the exact floors. -/
theorem scale_entry (w h : ℕ) (a : Flt) (qw qh qa : ℚ) (xwin ywin : ℕ)
    (hqw : qw = (w : ℚ) / 10000) (hqh : qh = (h : ℚ) / 10000)
    (hw : ∀ x ∈ [640, 800, 1024],
      (Flt.mulInt x (dbl w 10000)).toInt = ((x * w / 10000 : ℕ) : ℤ))
    (hh : ∀ y ∈ [480, 600, 768],
      (Flt.mulInt y (dbl h 10000)).toInt = ((y * h / 10000 : ℕ) : ℤ))
    (ha : |a.toRat - qa| ≤ qa / 2 ^ 24)
    (hx : xwin ∈ [640, 800, 1024]) (hy : ywin ∈ [480, 600, 768]) :
    (Flt.mulInt xwin (dbl w 10000)).toInt = ⌊(xwin : ℚ) * qw⌋ ∧
      (Flt.mulInt ywin (dbl h 10000)).toInt = ⌊(ywin : ℚ) * qh⌋ ∧
      |a.toRat - qa| ≤ qa / 2 ^ 24 :=
  ⟨by rw [floor_mul_tenThousandths xwin w qw hqw]; exact hw xwin hx,
    by rw [floor_mul_tenThousandths ywin h qh hqh]; exact hh ywin hy, ha⟩

/-- C5 (the claim as stated fails).  For tier 4 and a window 2500 pixels high,
`Life::scale` sets `tall = 254`, while `floor(2500 * .1020)` in exact rational
arithmetic is `255`: the `double` nearest to `.1020` lies below it, and the
product rounds to `254.99999999999997`. -/
theorem scale_tier4_height_2500 :
    (Life.scale 4 640 2500).tall = 254 ∧ ⌊((2500 : ℕ) : ℚ) * (tierTable 4).2.1⌋ = 255 := by
  constructor
  · decide
  · rw [floor_mul_tenThousandths 2500 1020 _ (by norm_num [tierTable])]
    decide

/-- C5 (amended).  For every value of `size` (tiers 1..9, anything else being the
default branch) and every window size the menu offers (`xwin` one of 640, 800,
1024, `ywin` one of 480, 600, 768), `Life::scale` sets
`wide = floor(xwin * widthMultiplier)` and `tall = floor(ywin * heightMultiplier)`
for the multipliers listed for the tier, in exact rational arithmetic, and
`adjust` to the listed render scale up to single-precision rounding (relative
error at most `2^-24`). -/
theorem scale_table (size : Int) (xwin ywin : ℕ)
    (hx : xwin ∈ [640, 800, 1024]) (hy : ywin ∈ [480, 600, 768]) :
    (Life.scale size xwin ywin).wide = ⌊(xwin : ℚ) * (tierTable size).1⌋ ∧
      (Life.scale size xwin ywin).tall = ⌊(ywin : ℚ) * (tierTable size).2.1⌋ ∧
      |(Life.scale size xwin ywin).adjust.toRat - (tierTable size).2.2| ≤
        (tierTable size).2.2 / 2 ^ 24 := by
  by_cases h9 : size = 9
  · subst h9
    exact scale_entry 369 438 (dbl 9 10).toFloat 0.0369 0.0438 0.9 xwin ywin (by norm_num) (by norm_num) (by decide) (by decide)
      (by rw [toFloat_tenths_9, abs_le]; norm_num [Flt.toRat]) hx hy
  by_cases h8 : size = 8
  · subst h8
    exact scale_entry 407 500 (dbl 8 10).toFloat 0.0407 0.0500 0.8 xwin ywin (by norm_num) (by norm_num) (by decide) (by decide)
      (by rw [toFloat_tenths_8, abs_le]; norm_num [Flt.toRat]) hx hy
  by_cases h7 : size = 7
  · subst h7
    exact scale_entry 468 583 (dbl 7 10).toFloat 0.0468 0.0583 0.7 xwin ywin (by norm_num) (by norm_num) (by decide) (by decide)
      (by rw [toFloat_tenths_7, abs_le]; norm_num [Flt.toRat]) hx hy
  by_cases h6 : size = 6
  · subst h6
    exact scale_entry 546 687 (dbl 6 10).toFloat 0.0546 0.0687 0.6 xwin ywin (by norm_num) (by norm_num) (by decide) (by decide)
      (by rw [toFloat_tenths_6, abs_le]; norm_num [Flt.toRat]) hx hy
  by_cases h5 : size = 5
  · subst h5
    exact scale_entry 656 812 (dbl 5 10).toFloat 0.0656 0.0812 0.5 xwin ywin (by norm_num) (by norm_num) (by decide) (by decide)
      (by rw [toFloat_tenths_5, abs_le]; norm_num [Flt.toRat]) hx hy
  by_cases h4 : size = 4
  · subst h4
    exact scale_entry 813 1020 (dbl 4 10).toFloat 0.0813 0.1020 0.4 xwin ywin (by norm_num) (by norm_num) (by decide) (by decide)
      (by rw [toFloat_tenths_4, abs_le]; norm_num [Flt.toRat]) hx hy
  by_cases h3 : size = 3
  · subst h3
    exact scale_entry 1093 1354 (dbl 3 10).toFloat 0.1093 0.1354 0.3 xwin ywin (by norm_num) (by norm_num) (by decide) (by decide)
      (by rw [toFloat_tenths_3, abs_le]; norm_num [Flt.toRat]) hx hy
  by_cases h2 : size = 2
  · subst h2
    exact scale_entry 1640 2041 (dbl 2 10).toFloat 0.1640 0.2041 0.2 xwin ywin (by norm_num) (by norm_num) (by decide) (by decide)
      (by rw [toFloat_tenths_2, abs_le]; norm_num [Flt.toRat]) hx hy
  by_cases h1 : size = 1
  · subst h1
    exact scale_entry 3265 4062 (dbl 1 10).toFloat 0.3265 0.4062 0.1 xwin ywin (by norm_num) (by norm_num) (by decide) (by decide)
      (by rw [toFloat_tenths_1, abs_le]; norm_num [Flt.toRat]) hx hy
  simp only [Life.scale, tierTable, h9, h8, h7, h6, h5, h4, h3, h2, h1, if_false]
  exact scale_entry 325 400 (dbl 1 1).toFloat 0.0325 0.0400 1.0 xwin ywin (by norm_num) (by norm_num) (by decide) (by decide)
    (by rw [toFloat_one, abs_le]; norm_num [Flt.toRat]) hx hy

/-- C5 (amended), at the two inputs the specification names: tier 5 with a
640 × 480 window gives `wide = 41`, `tall = 38` and `adjust` exactly `0.5`; the
default tier with 640 × 480 gives `wide = 20`, `tall = 19` and `adjust` exactly `1`. -/
theorem scale_table_witness :
    ((Life.scale 5 640 480).wide = 41 ∧ (Life.scale 5 640 480).tall = 38 ∧
        (Life.scale 5 640 480).adjust.toRat = 1 / 2) ∧
      ((Life.scale 10 640 480).wide = 20 ∧ (Life.scale 10 640 480).tall = 19 ∧
        (Life.scale 10 640 480).adjust.toRat = 1) := by
  have h5 := scale_table 5 640 480 (by decide) (by decide)
  have h10 := scale_table 10 640 480 (by decide) (by decide)
  refine ⟨⟨?_, ?_, ?_⟩, ⟨?_, ?_, ?_⟩⟩
  · rw [h5.1, floor_mul_tenThousandths 640 656 _ (by norm_num [tierTable])]; decide
  · rw [h5.2.1, floor_mul_tenThousandths 480 812 _ (by norm_num [tierTable])]; decide
  · have e : (Life.scale 5 640 480).adjust = ⟨8388608, -24⟩ := by decide
    rw [e]; norm_num [Flt.toRat]
  · rw [h10.1, floor_mul_tenThousandths 640 325 _ (by norm_num [tierTable])]; decide
  · rw [h10.2.1, floor_mul_tenThousandths 480 400 _ (by norm_num [tierTable])]; decide
  · have e : (Life.scale 10 640 480).adjust = ⟨8388608, -23⟩ := by decide
    rw [e]; norm_num [Flt.toRat]

/-! ## Engines reached from the constructor by `Life::update` alone -/

theorem update_tmp_eq_vect (oob : Mem) (s : Life) :
    (Life.update oob s).tmp = (Life.update oob s).vect := rfl

theorem updateN_tmp_eq_vect (oob : Mem) (n : Nat) (s : Life) (h : s.tmp = s.vect) :
    (Life.updateN oob n s).tmp = (Life.updateN oob n s).vect := by
  induction n generalizing s with
  | zero => exact h
  | succ n ih => exact ih (Life.update oob s) (update_tmp_eq_vect oob s)

theorem init_tmp (wide tall : Int) (yes : Bool) (rnd : Nat → Nat) :
    (Life.init wide tall yes rnd).tmp = blank wide tall ∧
      (Life.init wide tall yes rnd).wide = wide ∧ (Life.init wide tall yes rnd).tall = tall := by
  cases yes <;> exact ⟨rfl, rfl, rfl⟩

/-- In every engine reached from a freshly constructed one (all DEAD, then
`fill()` unless `yes`) by any number of `Life::update` calls, `tmp` is DEAD wherever
`vect` is DEAD: the missing `else` of `Life::update` is harmless on such runs. -/
theorem updateN_init_tmp_dead (oob : Mem) (n : Nat) (wide tall : Int) (yes : Bool)
    (rnd : Nat → Nat) :
    (Life.updateN oob n (Life.init wide tall yes rnd)).TmpDeadWhereVectDead := by
  cases n with
  | zero =>
    intro a b hin _
    obtain ⟨ht, hw, hl⟩ := init_tmp wide tall yes rnd
    show cell? (Life.init wide tall yes rnd).tmp a b = some 0
    rw [ht]
    apply cell?_blank
    have hin2 : inGrid (Life.init wide tall yes rnd).wide (Life.init wide tall yes rnd).tall a b :=
      hin
    rw [hw, hl] at hin2
    exact hin2
  | succ n =>
    intro a b _ hv
    have h := updateN_tmp_eq_vect oob n (Life.update oob (Life.init wide tall yes rnd))
      (update_tmp_eq_vect oob _)
    show cell? (Life.updateN oob n (Life.update oob (Life.init wide tall yes rnd))).tmp a b = some 0
    rw [h]
    exact hv

/-- C12 (the claim fails on this input).  The engine of the default configuration
(tier 10, 640 × 480, hence 20 × 19) started blank is all DEAD in both buffers, so
B36/S23 keeps cell `(1, 18)` DEAD.  `Life::update` counts `vect[0][19]`, `vect[1][19]`
and `vect[2][19]` for that cell, three words past the ends of the columns; when
they hold `1` the count is 3 and the cell is born. -/
theorem update_counts_memory_past_columns :
    (Life.scale 10 640 480).wide = 20 ∧ (Life.scale 10 640 480).tall = 19 ∧
      (Life.init 20 19 true (fun _ => 0)).vect = blank 20 19 ∧
      (Life.init 20 19 true (fun _ => 0)).TmpDeadWhereVectDead ∧
      Life.neighbourReads 20 19 1 18 = [(0, 18), (0, 19), (1, 19), (2, 19), (2, 18), (2, 17),
        (1, 17), (0, 17)] ∧
      highLife (Life.init 20 19 true (fun _ => 0)) 1 18 = 0 ∧
      cell? (Life.update onesMem (Life.init 20 19 true (fun _ => 0))).vect 1 18 = some 1 := by
  refine ⟨by decide, by decide, rfl, ?_, by decide, by decide, ?_⟩
  · exact updateN_init_tmp_dead onesMem 0 20 19 true (fun _ => 0)
  · rw [cell?_update]
    decide

/-! ## What `Life::update` computes when `tmp` is consistent and memory is benign -/

theorem cell?_isSome_of_shape (v : Grid) (wide tall a b : Int)
    (hl : v.length = wide.toNat) (hc : ∀ col ∈ v, col.length = tall.toNat)
    (h : inGrid wide tall a b) : ∃ c, cell? v a b = some c := by
  obtain ⟨h1, h2, h3, h4⟩ := h
  have ha : a.toNat < v.length := by omega
  have hb : b.toNat < (v[a.toNat]).length := by
    rw [hc _ (List.getElem_mem ha)]; omega
  exact ⟨(v[a.toNat])[b.toNat], by
    simp [cell?, h1, h3, List.getElem?_eq_getElem ha, List.getElem?_eq_getElem hb]⟩

theorem cell?_none_of_shape (v : Grid) (wide tall a b : Int)
    (hl : v.length = wide.toNat) (hc : ∀ col ∈ v, col.length = tall.toNat)
    (h : ¬ inGrid wide tall a b) : cell? v a b = none := by
  unfold cell?
  by_cases hab : 0 ≤ a ∧ 0 ≤ b
  · rw [if_pos hab]
    by_cases ha : a.toNat < v.length
    · have hb : ¬ b.toNat < (v[a.toNat]).length := by
        rw [hc _ (List.getElem_mem ha)]
        unfold inGrid at h
        omega
      simp [List.getElem?_eq_getElem ha, List.getElem?_eq_none (not_lt.mp hb)]
    · simp [List.getElem?_eq_none (not_lt.mp ha)]
  · rw [if_neg hab]

theorem length_filter_guard {α : Type} (g : Prop) [Decidable g] (p : α) (f : α → Bool) :
    ((if g then [p] else []).filter f).length = if g ∧ f p = true then 1 else 0 := by
  by_cases hg : g <;> by_cases hf : f p = true <;> simp [hg, hf]

theorem length_filter_cons {α : Type} (x : α) (l : List α) (f : α → Bool) :
    ((x :: l).filter f).length = (if f x = true then 1 else 0) + (l.filter f).length := by
  by_cases hf : f x = true <;> simp [hf, Nat.add_comm]

/-- One guarded read of the count agrees with the in-bounds test of the
specification, when the only reads outside the grid are of row `tall` and the
words there are not `1`. -/
theorem guarded_read_eq (oob : Mem) (s : Life) (hwf : s.WF) (hmem : ∀ a, oob a s.tall ≠ 1)
    (g : Prop) [Decidable g] (a b : Int)
    (hg : g → inGrid s.wide s.tall a b ∨ b = s.tall)
    (hin : inGrid s.wide s.tall a b → g) :
    (if g ∧ decide (rd oob s.vect a b = 1) = true then 1 else 0 : Nat) =
      if decide (inGrid s.wide s.tall a b ∧ cell? s.vect a b = some 1) = true then 1 else 0 := by
  obtain ⟨_, _, hl, hc, _, _⟩ := hwf
  by_cases hi : inGrid s.wide s.tall a b
  · obtain ⟨c, hcell⟩ := cell?_isSome_of_shape s.vect s.wide s.tall a b hl hc hi
    have hr : rd oob s.vect a b = c := by simp [rd, hcell]
    by_cases hc1 : c = 1
    · simp [hin hi, hi, hr, hcell, hc1]
    · simp [hi, hr, hcell, hc1]
  · have hcell := cell?_none_of_shape s.vect s.wide s.tall a b hl hc hi
    by_cases hgg : g
    · have hb : b = s.tall := by
        rcases hg hgg with h | h
        · exact absurd h hi
        · exact h
      have hr : rd oob s.vect a b ≠ 1 := by
        rw [rd, hcell, Option.getD_none, hb]
        exact hmem a
      simp [hi, hr]
    · simp [hi, hgg]

/-- The count of `Life::update` is the in-bounds live-neighbour count, for a cell of a
well-formed grid, when no word read past a column end holds `1`. -/
theorem count_eq_liveNeighbours (oob : Mem) (s : Life) (hwf : s.WF)
    (hmem : ∀ a, oob a s.tall ≠ 1) (y z : Int) (hin : inGrid s.wide s.tall y z) :
    Life.count oob s y z = (liveNeighbours s y z : Int) := by
  have hin0 := hin
  obtain ⟨h1, h2, h3, h4⟩ := hin
  unfold Life.count liveNeighbours Life.neighbourReads mooreOffsets
  simp only [List.filter_append, List.length_append, length_filter_guard, length_filter_cons,
    List.filter_nil, List.length_nil]
  have e1 : y + -1 = y - 1 := by ring
  have e2 : z + -1 = z - 1 := by ring
  simp only [e1, e2, add_zero]
  rw [guarded_read_eq oob s hwf hmem (y > 0) (y - 1) z
      (by intro h; left; unfold inGrid; omega) (by unfold inGrid; omega),
    guarded_read_eq oob s hwf hmem (y > 0 ∧ z < s.tall) (y - 1) (z + 1)
      (by intro h; unfold inGrid; omega) (by unfold inGrid; omega),
    guarded_read_eq oob s hwf hmem (z < s.tall) y (z + 1)
      (by intro h; unfold inGrid; omega) (by unfold inGrid; omega),
    guarded_read_eq oob s hwf hmem (y < s.wide - 1 ∧ z < s.tall) (y + 1) (z + 1)
      (by intro h; unfold inGrid; omega) (by unfold inGrid; omega),
    guarded_read_eq oob s hwf hmem (y < s.wide - 1) (y + 1) z
      (by intro h; left; unfold inGrid; omega) (by unfold inGrid; omega),
    guarded_read_eq oob s hwf hmem (y < s.wide - 1 ∧ z > 0) (y + 1) (z - 1)
      (by intro h; left; unfold inGrid; omega) (by unfold inGrid; omega),
    guarded_read_eq oob s hwf hmem (z > 0) y (z - 1)
      (by intro h; left; unfold inGrid; omega) (by unfold inGrid; omega),
    guarded_read_eq oob s hwf hmem (y > 0 ∧ z > 0) (y - 1) (z - 1)
      (by intro h; left; unfold inGrid; omega) (by unfold inGrid; omega)]
  push_cast
  omega

/-- On a well-formed engine of 0/1 cells whose `tmp` is DEAD wherever `vect` is,
and with no `1` in the words read past the column ends, one `Life::update` yields
the B36/S23 next generation at every cell of the grid. -/
theorem update_eq_highLife (oob : Mem) (s : Life) (hgood : s.Good)
    (hmem : ∀ a, oob a s.tall ≠ 1) (a b : Int) (hin : inGrid s.wide s.tall a b) :
    cell? (Life.update oob s).vect a b = some (highLife s a b) := by
  obtain ⟨hwf, hbin, _, htmp⟩ := hgood
  rw [cell?_update, if_pos hin]
  obtain ⟨t, ht⟩ := cell?_isSome_of_shape s.tmp s.wide s.tall a b hwf.2.2.2.2.1 hwf.2.2.2.2.2 hin
  obtain ⟨v, hv⟩ := cell?_isSome_of_shape s.vect s.wide s.tall a b hwf.2.2.1 hwf.2.2.2.1 hin
  have hr : rd oob s.vect a b = v := by simp [rd, hv]
  have hcnt := count_eq_liveNeighbours oob s hwf hmem a b hin
  rw [ht, Option.map_some']
  congr 1
  unfold Life.next highLife
  simp only [hr, hcnt, hv]
  rcases hbin a b v hv with rfl | rfl
  · have ht0 : t = 0 := by
      have h := htmp a b hin hv
      rw [ht] at h
      exact Option.some.inj h
    subst ht0
    split_ifs <;> simp_all <;> omega
  · split_ifs <;> simp_all <;> omega

/-! ## The engine states reached from the constructor -/

theorem foldl_preserves {α β : Type} (P : β → Prop) (f : β → α → β)
    (hf : ∀ b a, P b → P (f b a)) (l : List α) (b : β) (hb : P b) : P (l.foldl f b) := by
  induction l generalizing b with
  | nil => exact hb
  | cons x xs ih => exact ih (f b x) (hf b x hb)

theorem wr_shaped (wide tall : Int) (v : Grid) (a b c : Int) (h : Shaped wide tall v) :
    Shaped wide tall (wr v a b c) := by
  obtain ⟨hl, hc⟩ := h
  unfold wr
  split_ifs with hab
  · by_cases ha : a.toNat < v.length
    · refine ⟨by rw [List.length_set]; exact hl, ?_⟩
      intro col hcol
      rcases List.mem_or_eq_of_mem_set hcol with h | h
      · exact hc col h
      · rw [h, List.length_set, List.getD_eq_getElem _ _ ha]
        exact hc _ (List.getElem_mem ha)
    · rw [List.set_eq_of_length_le (not_lt.mp ha)]
      exact ⟨hl, hc⟩
  · exact ⟨hl, hc⟩

theorem wr_binary (v : Grid) (a b c : Int) (hc : c = 0 ∨ c = 1) (h : Binary v) :
    Binary (wr v a b c) := by
  intro x y d hd
  rw [cell?_wr] at hd
  split_ifs at hd with hxy
  · cases hcell : cell? v a b with
    | none => rw [hcell] at hd; exact absurd hd (by simp)
    | some e =>
      rw [hcell] at hd
      have : c = d := by simpa using hd
      rw [← this]; exact hc
  · exact h x y d hd

theorem blank_shaped (wide tall : Int) : Shaped wide tall (blank wide tall) := by
  refine ⟨by simp [blank], ?_⟩
  intro col hcol
  have := List.eq_of_mem_replicate hcol
  rw [this, List.length_replicate]

theorem blank_binary (wide tall : Int) : Binary (blank wide tall) := by
  intro a b c h
  left
  by_cases hin : inGrid wide tall a b
  · rw [cell?_blank wide tall a b hin] at h
    exact (Option.some.inj h).symm
  · rw [cell?_none_of_shape (blank wide tall) wide tall a b (blank_shaped wide tall).1
      (blank_shaped wide tall).2 hin] at h
    exact absurd h (by simp)

theorem fill_vect_shaped_binary (rnd : Nat → Nat) (s : Life)
    (h : Shaped s.wide s.tall s.vect ∧ Binary s.vect) :
    Shaped s.wide s.tall (Life.fill rnd s).vect ∧ Binary (Life.fill rnd s).vect := by
  unfold Life.fill
  apply foldl_preserves (fun v => Shaped s.wide s.tall v ∧ Binary v) _ _ _ _ h
  intro v y hv
  apply foldl_preserves (fun v => Shaped s.wide s.tall v ∧ Binary v) _ _ _ _ hv
  intro v z hv
  split_ifs
  · exact ⟨wr_shaped _ _ _ _ _ _ hv.1, wr_binary _ _ _ _ (Or.inr rfl) hv.2⟩
  · exact ⟨wr_shaped _ _ _ _ _ _ hv.1, wr_binary _ _ _ _ (Or.inl rfl) hv.2⟩

theorem update_tmp_shaped (oob : Mem) (s : Life) (h : Shaped s.wide s.tall s.tmp) :
    Shaped s.wide s.tall (Life.update oob s).vect := by
  unfold Life.update
  apply foldl_preserves (fun v => Shaped s.wide s.tall v) _ _ _ _ h
  intro v y hv
  unfold Life.updateColumn
  apply foldl_preserves (fun v => Shaped s.wide s.tall v) _ _ _ _ hv
  intro v z hv
  unfold Life.updateCell
  simp only []
  split_ifs
  · exact wr_shaped _ _ _ _ _ _ hv
  · exact wr_shaped _ _ _ _ _ _ hv
  · exact wr_shaped _ _ _ _ _ _ hv
  · exact hv

theorem next_binary (oob : Mem) (s : Life) (y z old : Int) (h : old = 0 ∨ old = 1) :
    Life.next oob s y z old = 0 ∨ Life.next oob s y z old = 1 := by
  unfold Life.next
  simp only []
  split_ifs
  · exact Or.inl rfl
  · exact Or.inr rfl
  · exact Or.inr rfl
  · exact h

theorem update_binary (oob : Mem) (s : Life) (h : Binary s.tmp) :
    Binary (Life.update oob s).vect := by
  intro a b c hc
  rw [cell?_update] at hc
  split_ifs at hc with hin
  · cases ht : cell? s.tmp a b with
    | none => rw [ht] at hc; exact absurd hc (by simp)
    | some t =>
      rw [ht, Option.map_some'] at hc
      rw [← Option.some.inj hc]
      exact next_binary oob s a b t (h a b t ht)
  · exact h a b c hc

/-- The constructor leaves a good engine. -/
theorem init_good (wide tall : Int) (hw : 0 ≤ wide) (ht : 0 ≤ tall) (yes : Bool)
    (rnd : Nat → Nat) : (Life.init wide tall yes rnd).Good := by
  have hs := blank_shaped wide tall
  have hb := blank_binary wide tall
  have hdead : ∀ (v : Grid) (a b : Int), inGrid wide tall a b → cell? v a b = some 0 →
      cell? (blank wide tall) a b = some 0 := fun _ a b hin _ => cell?_blank wide tall a b hin
  cases yes with
  | true => exact ⟨⟨hw, ht, hs.1, hs.2, hs.1, hs.2⟩, hb, hb, hdead _⟩
  | false =>
    have hf := fill_vect_shaped_binary rnd
      { wide := wide, tall := tall, vect := blank wide tall, tmp := blank wide tall } ⟨hs, hb⟩
    exact ⟨⟨hw, ht, hf.1.1, hf.1.2, hs.1, hs.2⟩, hf.2, hb, hdead _⟩

/-- The function `Life::update` takes a good engine to a good engine, whatever memory holds. -/
theorem update_good (oob : Mem) (s : Life) (h : s.Good) : (Life.update oob s).Good := by
  obtain ⟨hwf, _, hbt, _⟩ := h
  have hs := update_tmp_shaped oob s ⟨hwf.2.2.2.2.1, hwf.2.2.2.2.2⟩
  have hb := update_binary oob s hbt
  exact ⟨⟨hwf.1, hwf.2.1, hs.1, hs.2, hs.1, hs.2⟩, hb, hb, fun _ _ _ hv => hv⟩

theorem updateN_good (oob : Mem) (n : Nat) (s : Life) (h : s.Good) :
    (Life.updateN oob n s).Good := by
  induction n generalizing s with
  | zero => exact h
  | succ n ih => exact ih (Life.update oob s) (update_good oob s h)

theorem updateN_tall (oob : Mem) (n : Nat) (s : Life) :
    (Life.updateN oob n s).tall = s.tall ∧ (Life.updateN oob n s).wide = s.wide := by
  induction n generalizing s with
  | zero => exact ⟨rfl, rfl⟩
  | succ n ih => exact ih (Life.update oob s)

/-- In every engine reached from a freshly constructed one by `Life::update` calls
alone, a further `Life::update` yields the B36/S23 next generation at every cell of
the grid, provided no word read past a column end (`vect[a][tall]`) holds `1`. -/
theorem updateN_init_highLife (oob : Mem) (n : Nat) (wide tall : Int) (hw : 0 ≤ wide)
    (ht : 0 ≤ tall) (yes : Bool) (rnd : Nat → Nat) (hmem : ∀ a, oob a tall ≠ 1)
    (a b : Int) (hin : inGrid wide tall a b) :
    cell? (Life.update oob (Life.updateN oob n (Life.init wide tall yes rnd))).vect a b =
      some (highLife (Life.updateN oob n (Life.init wide tall yes rnd)) a b) := by
  have hg := updateN_good oob n _ (init_good wide tall hw ht yes rnd)
  obtain ⟨h1, h2⟩ := updateN_tall oob n (Life.init wide tall yes rnd)
  obtain ⟨_, h3, h4⟩ := init_tmp wide tall yes rnd
  apply update_eq_highLife oob _ hg
  · rw [h1, h4]; exact hmem
  · rw [h1, h2, h3, h4]; exact hin

/-! ## The number of draws `Life::render` issues -/

theorem render_inner_length {P : Type} (place : Int → Int → P) (oob : Mem) (s : Life) (x : Nat)
    (n : Nat) (st : List P × P) :
    ((List.range n).foldl (fun (st : List P × P) (y : Nat) =>
      let cell := if rd oob s.vect x y = 1 then place x y else st.2
      (st.1 ++ [cell], cell)) st).1.length = st.1.length + n := by
  induction n with
  | zero => simp
  | succ n ih =>
    rw [List.range_succ, List.foldl_append, List.foldl_cons, List.foldl_nil]
    simp only [List.length_append, List.length_singleton, ih]
    omega

/-- The function `Life::render` issues one draw for every cell of the grid, ALIVE or DEAD:
`wide * tall` draws in all. -/
theorem render_draw_count {P : Type} (place : Int → Int → P) (oob : Mem) (s : Life) (c : P) :
    (Life.render place oob s c).1.length = s.wide.toNat * s.tall.toNat := by
  unfold Life.render
  have h : ∀ (m : Nat) (st : List P × P),
      ((List.range m).foldl (fun (st : List P × P) (x : Nat) =>
        (List.range s.tall.toNat).foldl (fun (st : List P × P) (y : Nat) =>
          let cell := if rd oob s.vect x y = 1 then place x y else st.2
          (st.1 ++ [cell], cell)) st) st).1.length = st.1.length + m * s.tall.toNat := by
    intro m
    induction m with
    | zero => intro st; simp
    | succ m ih =>
      intro st
      rw [List.range_succ, List.foldl_append, List.foldl_cons, List.foldl_nil,
        render_inner_length, ih, Nat.succ_mul]
      omega
  rw [h]
  simp

/-! ## The middle-click handler inside the grid -/

/-- For a mapped click inside the grid the `Mouse::Middle` handler makes that cell
DEAD and leaves every other cell as it was. -/
theorem middle_in_grid (s : Life) (hwf : s.WF) (x y : Int) (hin : inGrid s.wide s.tall x y)
    (a b : Int) :
    cell? (Life.middle s x y).vect a b =
      if a = x ∧ b = y then some 0 else cell? s.vect a b := by
  obtain ⟨h1, h2, h3, h4⟩ := hin
  have hg : x < s.wide ∧ y < s.tall := ⟨h2, h4⟩
  obtain ⟨c, hc⟩ := cell?_isSome_of_shape s.vect s.wide s.tall x y hwf.2.2.1 hwf.2.2.2.1
    ⟨h1, h2, h3, h4⟩
  simp only [Life.middle, Life.middleWrites, if_pos hg, applyWrites, List.foldl_cons,
    List.foldl_nil, cell?_wr, hc, Option.map_some']

/-- The `Mouse::Middle` handler does nothing when `x ≥ wide` or `y ≥ tall`. -/
theorem middle_beyond_upper_bounds (s : Life) (x y : Int) (h : ¬ (x < s.wide ∧ y < s.tall)) :
    Life.middle s x y = s := by
  simp only [Life.middle, Life.middleWrites, if_neg h, applyWrites, List.foldl_nil]

end GameOfLife
